import Mathlib

/-!
# Integration helpers of the CCIP home-chain tests

A shallow embedding of `integrationhelpers/integration_helpers.go`:
`P2pIDsFromInts`, the DON identifier computed by `AddDONToRegistry`,
`GenerateRMNHomeConfigs` and `GenerateExpectedRMNHomeNodesInfo`.
-/

namespace IntegrationHelpers

/-! ## Bytes and fixed-width identifiers -/

/-- A Go `byte`. -/
abbrev Byte := Fin 256

/-- A Go `[32]byte`. -/
structure Bytes32 where
  bytes : List Byte
  size : bytes.length = 32
deriving DecidableEq

/-- Indexing `a[k]` for `k < 32`. -/
def Bytes32.at (a : Bytes32) (k : Nat) (h : k < 32) : Byte :=
  a.bytes.get ⟨k, by rw [a.size]; exact h⟩

/-- The zero value of `[32]byte`. -/
def Bytes32.zero : Bytes32 := ⟨List.replicate 32 0, by simp⟩

/-! ## `P2pIDsFromInts` -/

/-- The body of the `less` closure handed to `sort.Slice`, with `n` passes of its loop still to
run, that is from byte index `k = 32 - n` on:
`for ; k < 32; k++ { if a[k] < b[k] { return true } else if a[k] > b[k] { return false } }; return false`. -/
def lessFrom (a b : Bytes32) : Nat → Bool
  | 0 => false
  | n + 1 =>
    if h : 32 - (n + 1) < 32 then
      if a.at (32 - (n + 1)) h < b.at (32 - (n + 1)) h then true
      else if a.at (32 - (n + 1)) h > b.at (32 - (n + 1)) h then false
      else lessFrom a b n
    else false

/-- The `less` closure of `P2pIDsFromInts`, on the two compared elements: the loop from
`k := 0`, all 32 passes to run. -/
def less (a b : Bytes32) : Bool := lessFrom a b 32

/-- The inner loop of `insertionSort_func` in Go's package `sort`,
`for j := i; j > a && less(j, j-1); j-- { swap(j, j-1) }`:
the element `x` at index `i` sinks leftwards through the already ordered prefix, which is
given here from right to left (its head is `data[i-1]`). -/
def sinkLeft (lt : Bytes32 → Bytes32 → Bool) (x : Bytes32) : List Bytes32 → List Bytes32
  | [] => [x]
  | p :: ps => if lt x p then p :: sinkLeft lt x ps else x :: p :: ps

/-- The routine `insertionSort_func` of Go's package `sort`, which `sort.Slice` runs on slices of
at most 12 elements: `for i := a + 1; i < b; i++ { ...sink data[i]... }`. -/
def insertionSort_func (lt : Bytes32 → Bytes32 → Bool) (data : List Bytes32) : List Bytes32 :=
  (data.foldl (fun ordered x => sinkLeft lt x ordered) []).reverse

/-- The requirement of `sort.Slice` on its `less` argument (package `sort`, `Interface.Less`):
a strict weak ordering. -/
def StrictWeakOrdering (lt : Bytes32 → Bytes32 → Bool) : Prop :=
  (∀ a, lt a a = false) ∧
  (∀ a b c, lt a b = true → lt b c = true → lt a c = true) ∧
  (∀ a b c, lt a b = false → lt b c = false → lt a c = false)

/-- The documented behaviour of the standard library's `sort.Slice`, which is not part of this
repository: when `less` is a strict weak ordering the slice is rearranged (nothing added,
nothing dropped) so that no element is less than an earlier one. The sort is not stable. -/
def SortSliceContract (sortSlice : (Bytes32 → Bytes32 → Bool) → List Bytes32 → List Bytes32) :
    Prop :=
  ∀ lt xs, StrictWeakOrdering lt →
    (sortSlice lt xs).Perm xs ∧ (sortSlice lt xs).Pairwise (fun a b => lt b a = false)

/-- `P2pIDsFromInts`: derive a peer id from every integer, then `sort.Slice` with `less`.
`peerIDOf i` stands for `p2pkey.MustNewV2XXXTestingOnly(big.NewInt(i)).PeerID()` and
`sortSlice` for the standard library's `sort.Slice`. -/
def P2pIDsFromInts (sortSlice : (Bytes32 → Bytes32 → Bool) → List Bytes32 → List Bytes32)
    (peerIDOf : Int → Bytes32) (ints : List Int) : List Bytes32 :=
  let p2pIDs := ints.foldl (fun acc i => acc ++ [peerIDOf i]) []
  sortSlice less p2pIDs

/-- Lexicographic "strictly below" on 32 bytes, most significant (index 0) byte first, as the
specification words it: the first differing byte decides. -/
def LexLT (a b : Bytes32) : Prop :=
  ∃ (k : Nat) (hk : k < 32),
    (∀ (j : Nat) (hj : j < k), a.at j (Nat.lt_trans hj hk) = b.at j (Nat.lt_trans hj hk)) ∧
      a.at k hk < b.at k hk

/-- Lexicographic "below or equal" on 32 bytes, most significant byte first. -/
def LexLE (a b : Bytes32) : Prop := a = b ∨ LexLT a b

/-! ## The DON identifier of `AddDONToRegistry` -/

/-- The scan over the `ConfigSet` events: `var maxDonID uint32; for iter.Next()
{ if iter.Event.DonId > maxDonID { maxDonID = iter.Event.DonId } }`. -/
def maxDonID (donIds : List Nat) : Nat :=
  donIds.foldl (fun m d => if d > m then d else m) 0

/-- The new identifier, `donID := maxDonID + 1` in `uint32` arithmetic. -/
def nextDonID (donIds : List Nat) : Nat :=
  (maxDonID donIds + 1) % 2 ^ 32

/-! ## Hex decoding (`encoding/hex`) -/

/-- A Go `string`: a sequence of bytes. -/
abbrev GoString := List Byte

/-- The errors of `encoding/hex`. -/
inductive HexError where
  | invalidByte (b : Byte)
  | errLength
deriving DecidableEq, Repr

/-- The `reverseHexTable` of `encoding/hex`: the value of a hex digit, `0xff` for any other
byte. -/
def reverseHexTable (c : Byte) : Byte :=
  if 48 ≤ c.val ∧ c.val ≤ 57 then c - 48
  else if 65 ≤ c.val ∧ c.val ≤ 70 then c - 55
  else if 97 ≤ c.val ∧ c.val ≤ 102 then c - 87
  else 0xff

/-- The loop of `hex.Decode` together with its odd-length epilogue, as `hex.DecodeString`
returns it: the bytes decoded before the first problem, and the error if any.
`a := reverseHexTable[p]; b := reverseHexTable[q]; if a > 0x0f { return i, InvalidByteError(p) };
if b > 0x0f { return i, InvalidByteError(q) }; dst[i] = (a << 4) | b`. -/
def hexDecodeString : GoString → List Byte × Option HexError
  | [] => ([], none)
  | [p] =>
    if reverseHexTable p > 0x0f then ([], some (HexError.invalidByte p))
    else ([], some HexError.errLength)
  | p :: q :: rest =>
    let a := reverseHexTable p
    let b := reverseHexTable q
    if a > 0x0f then ([], some (HexError.invalidByte p))
    else if b > 0x0f then ([], some (HexError.invalidByte q))
    else
      let r := hexDecodeString rest
      (((a <<< 4) ||| b) :: r.1, r.2)

/-- The statement `var dst [32]byte; copy(dst[:], src)`: the first 32 bytes of `src`, the rest
of `dst` staying zero. -/
def copy32 (src : List Byte) : Bytes32 :=
  ⟨(List.range 32).map (fun i => src.getD i 0), by simp⟩

/-- A hex digit, as the specification understands it: `0-9`, `a-f` or `A-F`. -/
def IsHexDigit (c : Byte) : Prop :=
  (48 ≤ c.val ∧ c.val ≤ 57) ∨ (97 ≤ c.val ∧ c.val ≤ 102) ∨ (65 ≤ c.val ∧ c.val ≤ 70)

instance (c : Byte) : Decidable (IsHexDigit c) := by
  unfold IsHexDigit; infer_instance

/-- A valid hex string: an even number of characters, all of them hex digits. -/
def ValidHex (s : GoString) : Prop :=
  s.length % 2 = 0 ∧ ∀ c ∈ s, IsHexDigit c

instance (s : GoString) : Decidable (ValidHex s) := by
  unfold ValidHex; infer_instance

/-- The value of a hex digit, as the specification understands it. -/
def hexDigitValue (c : Byte) : Nat :=
  if 48 ≤ c.val ∧ c.val ≤ 57 then c.val - 48
  else if 97 ≤ c.val ∧ c.val ≤ 102 then c.val - 97 + 10
  else c.val - 65 + 10

/-- The bytes a hex string denotes: every pair of digits is one byte, high digit first. -/
def hexBytes : GoString → List Nat
  | p :: q :: rest => (16 * hexDigitValue p + hexDigitValue q) :: hexBytes rest
  | _ => []

/-! ## RMN home configurations -/

/-- The binding `rmn_home.RMNHomeNode`. -/
structure RMNHomeNode where
  PeerId : Bytes32
  OffchainPublicKey : Bytes32
deriving DecidableEq

/-- The binding `rmn_home.RMNHomeStaticConfig`. -/
structure RMNHomeStaticConfig where
  Nodes : List RMNHomeNode
  OffchainConfig : List Byte
deriving DecidableEq

/-- The binding `rmn_home.RMNHomeSourceChain`; the bitmap is a `*big.Int`. -/
structure RMNHomeSourceChain where
  ChainSelector : Nat
  FObserve : Nat
  ObserverNodesBitmap : Int
deriving DecidableEq

/-- The binding `rmn_home.RMNHomeDynamicConfig`. -/
structure RMNHomeDynamicConfig where
  SourceChains : List RMNHomeSourceChain
  OffchainConfig : List Byte
deriving DecidableEq

/-- The error `fmt.Errorf("error decoding offchain public key: %w", err)`. -/
structure OffchainKeyError where
  cause : HexError
deriving DecidableEq

/-- `GenerateRMNHomeConfigs`. The error of decoding `peerID` is dropped (`peerIDByte, _ :=`),
the error of decoding `offchainPK` is returned with two zero-value configs. -/
def GenerateRMNHomeConfigs (peerID offchainPK offchainCfg : GoString) (chainSelector f : Nat)
    (observerBitmap : Int) :
    RMNHomeStaticConfig × RMNHomeDynamicConfig × Option OffchainKeyError :=
  let peerIDByte := (hexDecodeString peerID).1
  let peerIDBytes := copy32 peerIDByte
  let (offchainPublicKey, err) := hexDecodeString offchainPK
  match err with
  | some e => (⟨[], []⟩, ⟨[], []⟩, some ⟨e⟩)
  | none =>
    let offchainPublicKeyBytes := copy32 offchainPublicKey
    let staticConfig : RMNHomeStaticConfig :=
      { Nodes := [{ PeerId := peerIDBytes, OffchainPublicKey := offchainPublicKeyBytes }]
        OffchainConfig := offchainCfg }
    let dynamicConfig : RMNHomeDynamicConfig :=
      { SourceChains :=
          [{ ChainSelector := chainSelector, FObserve := f, ObserverNodesBitmap := observerBitmap }]
        OffchainConfig := offchainCfg }
    (staticConfig, dynamicConfig, none)

/-- The record `ccipreader.HomeNodeInfo`; the supported chains are a `mapset.Set` of selectors
and the public key is the `ed25519.PublicKey` byte slice. -/
structure HomeNodeInfo where
  ID : Nat
  PeerID : Bytes32
  SupportedSourceChains : Finset Nat
  OffchainPublicKey : List Byte
deriving DecidableEq

/-- The conversion `ccipocr3.ChainSelector(chainID)` of a Go `int` to `uint64`. -/
def chainSelectorOfInt (chainID : Int) : Nat := (chainID % 2 ^ 64).toNat

/-- The conversion `int(c)` of a `uint64` chain selector to a 64-bit Go `int`. -/
def intOfChainSelector (c : Nat) : Int :=
  if c % 2 ^ 64 < 2 ^ 63 then ((c % 2 ^ 64 : Nat) : Int) else ((c % 2 ^ 64 : Nat) : Int) - 2 ^ 64

/-- One pass of the loop of `GenerateExpectedRMNHomeNodesInfo`: append the record of node `n`
and `counter++` on a `uint32`. -/
def nodesInfoStep (supported : Finset Nat) (st : List HomeNodeInfo × Nat) (n : RMNHomeNode) :
    List HomeNodeInfo × Nat :=
  (st.1 ++ [{ ID := st.2, PeerID := n.PeerId, SupportedSourceChains := supported,
              OffchainPublicKey := n.OffchainPublicKey.bytes }],
   (st.2 + 1) % 2 ^ 32)

/-- `GenerateExpectedRMNHomeNodesInfo`. -/
def GenerateExpectedRMNHomeNodesInfo (staticConfig : RMNHomeStaticConfig) (chainID : Int) :
    List HomeNodeInfo :=
  let supportedCandidateSourceChains : Finset Nat := {chainSelectorOfInt chainID}
  (staticConfig.Nodes.foldl (nodesInfoStep supportedCandidateSourceChains) ([], 0)).1

/-- The supported source chains of the node at static-config index `k` as the specification
defines them from a dynamic config: the selectors of the source chains whose observer bitmap
has bit `k` (value `2^k`) set. -/
def observedSourceChains (dynamicConfig : RMNHomeDynamicConfig) (k : Nat) : Finset Nat :=
  ((dynamicConfig.SourceChains.filter
      (fun sc => (sc.ObserverNodesBitmap / 2 ^ k) % 2 = 1)).map
    (fun sc => sc.ChainSelector)).toFinset

/-! ## The configuration registry driven by `AddDONToRegistry` -/

/-- The binding `ccip_home.CCIPHomeOCR3Node`. -/
structure CCIPHomeOCR3Node where
  P2pId : Bytes32
  SignerKey : List Byte
  TransmitterKey : List Byte
deriving DecidableEq

/-- The binding `ccip_home.CCIPHomeOCR3Config`, the content of a config slot. -/
structure CCIPHomeOCR3Config where
  PluginType : Nat
  ChainSelector : Nat
  FRoleDON : Nat
  OffchainConfigVersion : Nat
  OfframpAddress : List Byte
  RmnHomeAddress : List Byte
  Nodes : List CCIPHomeOCR3Node
  OffchainConfig : List Byte
deriving DecidableEq

/-- The plugin types `cctypes.PluginTypeCCIPCommit` and `cctypes.PluginTypeCCIPExec`. -/
inductive PluginType where
  | Commit
  | Exec
deriving DecidableEq, Repr

/-- The conversion `uint8(pluginType)`. -/
def PluginType.toUInt8 : PluginType → Nat
  | PluginType.Commit => 0
  | PluginType.Exec => 1

/-- Modelled from the spec: the key `(DON identifier, plugin type)` of a PluginConfig. -/
abbrev Key := Nat × Nat

/-- Modelled from the spec: the two slots of a PluginConfig, each empty or holding a config. -/
structure Slots where
  candidate : Option CCIPHomeOCR3Config
  active : Option CCIPHomeOCR3Config
deriving DecidableEq

/-- Modelled from the spec: the state of the ConfigRegistry, the slots of every known key and
`none` for an unknown key. -/
abbrev Registry := Key → Option Slots

/-- Modelled from the spec: the error kinds of the ConfigRegistry operations. -/
inductive RegistryError where
  | DigestMismatch
  | NotFound
  | MalformedConfig
deriving DecidableEq, Repr

/-- The zero digest `[32]byte{}`. -/
def zeroDigest : Bytes32 := Bytes32.zero

/-- Modelled from the spec: the digest of a slot, the zero digest when it is empty and the
content hash `digest` of the config otherwise. -/
def slotDigest (digest : CCIPHomeOCR3Config → Bytes32) : Option CCIPHomeOCR3Config → Bytes32
  | none => zeroDigest
  | some c => digest c

/-- Modelled from the spec: `GetAllConfigs` of the CCIPHome contract, which is not in the source
tree; a point-in-time read of both slots, both empty for a key never written. -/
def GetAllConfigs (reg : Registry) (k : Key) : Slots :=
  match reg k with
  | some s => s
  | none => ⟨none, none⟩

/-- Modelled from the spec: `SetCandidate` of the CCIPHome contract, which is not in the source
tree; writes the config into the Candidate slot only if the slot's current digest equals the
expected prior digest (the zero digest for an empty slot), else fails with `DigestMismatch`.
The specification promises success for a valid config only and does not say which configs are
valid: `valid` is that notion, and a config that is not valid is refused. -/
def SetCandidate (digest : CCIPHomeOCR3Config → Bytes32) (valid : CCIPHomeOCR3Config → Bool)
    (reg : Registry) (k : Key) (config : CCIPHomeOCR3Config)
    (expectedPriorCandidateDigest : Bytes32) : Except RegistryError Registry :=
  if valid config = true then
    let s := GetAllConfigs reg k
    if slotDigest digest s.candidate = expectedPriorCandidateDigest then
      Except.ok (Function.update reg k (some { s with candidate := some config }))
    else Except.error RegistryError.DigestMismatch
  else Except.error RegistryError.MalformedConfig

/-- Modelled from the spec: `GetCandidateDigest` of the CCIPHome contract, which is not in the
source tree; the current Candidate digest, the zero digest if the slot is empty, `NotFound` for
an unknown key. -/
def GetCandidateDigest (digest : CCIPHomeOCR3Config → Bytes32) (reg : Registry) (k : Key) :
    Except RegistryError Bytes32 :=
  match reg k with
  | some s => Except.ok (slotDigest digest s.candidate)
  | none => Except.error RegistryError.NotFound

/-- Modelled from the spec: `PromoteCandidateAndRevokeActive` of the CCIPHome contract, which is
not in the source tree; succeeds only if the stored Candidate digest equals `candidateDigest`
and the stored Active digest equals `expectedPriorActiveDigest`, and then sets Active to the
Candidate and empties the Candidate; otherwise `DigestMismatch` and no change. -/
def PromoteCandidateAndRevokeActive (digest : CCIPHomeOCR3Config → Bytes32) (reg : Registry)
    (k : Key) (candidateDigest expectedPriorActiveDigest : Bytes32) :
    Except RegistryError Registry :=
  match reg k with
  | none => Except.error RegistryError.NotFound
  | some s =>
    if slotDigest digest s.candidate = candidateDigest ∧
        slotDigest digest s.active = expectedPriorActiveDigest then
      Except.ok (Function.update reg k (some { candidate := none, active := s.candidate }))
    else Except.error RegistryError.DigestMismatch

/-- The two calls `AddDONToRegistry` packs with `tabi.Pack`: `"setCandidate"` and
`"promoteCandidateAndRevokeActive"`, each with its four arguments. -/
inductive PackedCall where
  | setCandidate (donID pluginType : Nat) (config : CCIPHomeOCR3Config) (digest : Bytes32)
  | promoteCandidateAndRevokeActive (donID pluginType : Nat)
      (candidateDigest activeDigest : Bytes32)
deriving DecidableEq

/-- The binding `kcr.CapabilitiesRegistryCapabilityConfiguration`. -/
structure CapabilitiesRegistryCapabilityConfiguration where
  CapabilityId : Bytes32
  Config : PackedCall
deriving DecidableEq

/-- The capabilities registry `t.CapReg`, a contract outside this repository, as far as
`AddDONToRegistry` uses it, over its own state `σ`: the DON identifiers of the `ConfigSet`
events it has emitted, and what its own checks answer to `AddDON(nodes, configs, isPublic,
acceptsWorkflows, f)` and `UpdateDON(donId, nodes, configs, isPublic, f)`: its next state, or
`none` when it reverts. -/
structure CapabilitiesRegistry (σ : Type) where
  FilterConfigSet : σ → List Nat
  AddDON : σ → List Bytes32 → List CapabilitiesRegistryCapabilityConfiguration → Bool → Bool →
    Nat → Option σ
  UpdateDON : σ → Nat → List Bytes32 → List CapabilitiesRegistryCapabilityConfiguration → Bool →
    Nat → Option σ

/-- What stops `AddDONToRegistry`: a transaction the capabilities registry reverts or a call
the CCIPHome contract refuses (`require.NoError`), or a read that differs from the config
written (`require.Equal`). -/
inductive Failure where
  | reverted
  | call (e : RegistryError)
  | notEqual
deriving DecidableEq, Repr

/-- Lift a registry outcome into the test's control flow (`require.NoError`). -/
def requireNoError {α : Type} : Except RegistryError α → Except Failure α
  | Except.ok a => Except.ok a
  | Except.error e => Except.error (Failure.call e)

/-- The check `require.Equal(expected, actual)` on a slot. -/
def requireEqual (expected : CCIPHomeOCR3Config) (actual : Option CCIPHomeOCR3Config) :
    Except Failure Unit :=
  if actual = some expected then Except.ok () else Except.error Failure.notEqual

/-- Modelled from the spec: the CCIPHome contract, which is not in the source tree, executing a
packed call on its registry state. -/
def executeCall (digest : CCIPHomeOCR3Config → Bytes32) (valid : CCIPHomeOCR3Config → Bool)
    (reg : Registry) : PackedCall → Except RegistryError Registry
  | PackedCall.setCandidate donID pluginType config d =>
    SetCandidate digest valid reg (donID, pluginType) config d
  | PackedCall.promoteCandidateAndRevokeActive donID pluginType candidateDigest activeDigest =>
    PromoteCandidateAndRevokeActive digest reg (donID, pluginType) candidateDigest activeDigest

/-- A DON transaction followed by `require.NoError(err)`: it fails when the capabilities
registry reverts (`answer = none`); otherwise the registry hands every capability
configuration to the CCIPHome contract, and a refusal there fails the transaction too. -/
def donTransaction {σ : Type} (digest : CCIPHomeOCR3Config → Bytes32)
    (valid : CCIPHomeOCR3Config → Bool) (answer : Option σ)
    (configs : List CapabilitiesRegistryCapabilityConfiguration) (reg : Registry) :
    Except Failure (σ × Registry) :=
  match answer with
  | none => Except.error Failure.reverted
  | some s => do
    let reg2 ← configs.foldlM (fun r c => requireNoError (executeCall digest valid r c.Config)) reg
    pure (s, reg2)

/-- The loop of `AddDONToRegistry` that builds `nodes` from the peer ids; `newAddress k` is the
result of the `k`-th call of `testutils.NewAddress().Bytes()`. -/
def ocr3Nodes (newAddress : Nat → List Byte) (p2pIDs : List Bytes32) : List CCIPHomeOCR3Node :=
  p2pIDs.enum.map (fun p =>
    { P2pId := p.2, SignerKey := newAddress (2 * p.1), TransmitterKey := newAddress (2 * p.1 + 1) })

/-- The config `ocr3Config` that `AddDONToRegistry` builds for one plugin type; its two fresh
addresses are drawn after those of the nodes, Commit first. -/
def ocr3ConfigFor (newAddress : Nat → List Byte) (chainSelector f : Nat)
    (p2pIDs : List Bytes32) (pluginType : PluginType) : CCIPHomeOCR3Config :=
  { PluginType := pluginType.toUInt8
    ChainSelector := chainSelector
    FRoleDON := f
    OffchainConfigVersion := 30
    OfframpAddress := newAddress (2 * p2pIDs.length + 2 * pluginType.toUInt8)
    RmnHomeAddress := newAddress (2 * p2pIDs.length + 2 * pluginType.toUInt8 + 1)
    Nodes := ocr3Nodes newAddress p2pIDs
    OffchainConfig := [111, 102, 102, 99, 104, 97, 105, 110, 32, 99, 111, 110, 102, 105, 103] }

/-- The capability configuration carrying `encodedSetCandidateCall`. -/
def setCandidateConfiguration (ccipCapabilityID : Bytes32) (donID : Nat)
    (ocr3Config : CCIPHomeOCR3Config) : List CapabilitiesRegistryCapabilityConfiguration :=
  [{ CapabilityId := ccipCapabilityID
     Config := PackedCall.setCandidate donID ocr3Config.PluginType ocr3Config zeroDigest }]

/-- The capability configuration carrying `encodedPromotionCall`. -/
def promotionConfiguration (ccipCapabilityID : Bytes32) (donID : Nat)
    (ocr3Config : CCIPHomeOCR3Config) (candidateDigest : Bytes32) :
    List CapabilitiesRegistryCapabilityConfiguration :=
  [{ CapabilityId := ccipCapabilityID
     Config := PackedCall.promoteCandidateAndRevokeActive donID ocr3Config.PluginType
       candidateDigest zeroDigest }]

/-- The answer of the capabilities registry to the transaction that carries the candidate:
`AddDON` for the Commit plugin ("Create DON should be called only once"), `UpdateDON` for the
Exec plugin. -/
def candidateAnswer {σ : Type} (capReg : CapabilitiesRegistry σ) (s : σ)
    (ccipCapabilityID : Bytes32) (donID f : Nat) (p2pIDs : List Bytes32)
    (ocr3Config : CCIPHomeOCR3Config) (pluginType : PluginType) : Option σ :=
  if pluginType = PluginType.Commit then
    capReg.AddDON s p2pIDs (setCandidateConfiguration ccipCapabilityID donID ocr3Config)
      false false f
  else
    capReg.UpdateDON s donID p2pIDs (setCandidateConfiguration ccipCapabilityID donID ocr3Config)
      false f

/-- The body of the loop of `AddDONToRegistry` for one plugin type, on the state of the
capabilities registry and of the CCIPHome contract: send the candidate in a DON transaction,
read it back, fetch its digest, send the promotion in an `UpdateDON`, read the active config
back. -/
def addDONStep {σ : Type} (digest : CCIPHomeOCR3Config → Bytes32)
    (valid : CCIPHomeOCR3Config → Bool) (capReg : CapabilitiesRegistry σ)
    (newAddress : Nat → List Byte) (ccipCapabilityID : Bytes32) (donID : Nat)
    (chainSelector f : Nat) (p2pIDs : List Bytes32)
    (st : σ × Registry) (pluginType : PluginType) : Except Failure (σ × Registry) := do
  let ocr3Config := ocr3ConfigFor newAddress chainSelector f p2pIDs pluginType
  let st1 ← donTransaction digest valid
    (candidateAnswer capReg st.1 ccipCapabilityID donID f p2pIDs ocr3Config pluginType)
    (setCandidateConfiguration ccipCapabilityID donID ocr3Config) st.2
  requireEqual ocr3Config (GetAllConfigs st1.2 (donID, pluginType.toUInt8)).candidate
  let candidateDigest ← requireNoError
    (GetCandidateDigest digest st1.2 (donID, ocr3Config.PluginType))
  let st2 ← donTransaction digest valid
    (capReg.UpdateDON st1.1 donID p2pIDs
      (promotionConfiguration ccipCapabilityID donID ocr3Config candidateDigest) false f)
    (promotionConfiguration ccipCapabilityID donID ocr3Config candidateDigest) st1.2
  requireEqual ocr3Config (GetAllConfigs st2.2 (donID, pluginType.toUInt8)).active
  pure st2

/-- `AddDONToRegistry`: the new DON identifier is one more than the largest identifier in the
`ConfigSet` events of the capabilities registry, then the loop runs for the Commit and the
Exec plugin. -/
def AddDONToRegistry {σ : Type} (digest : CCIPHomeOCR3Config → Bytes32)
    (valid : CCIPHomeOCR3Config → Bool) (capReg : CapabilitiesRegistry σ)
    (newAddress : Nat → List Byte) (ccipCapabilityID : Bytes32)
    (chainSelector f : Nat) (p2pIDs : List Bytes32) (st : σ × Registry) :
    Except Failure (σ × Registry) :=
  let donID := nextDonID (capReg.FilterConfigSet st.1)
  [PluginType.Commit, PluginType.Exec].foldlM
    (addDONStep digest valid capReg newAddress ccipCapabilityID donID chainSelector f p2pIDs) st

/-! ## Sample data -/

/-- A sample key derivation: the identifier whose last byte is `i mod 256`, all others zero. -/
def samplePeerID (i : Int) : Bytes32 :=
  ⟨List.replicate 31 0 ++ [Fin.ofNat (i % 256).toNat], by simp⟩

/-- A sample content hash: all bytes zero but the last two, which carry the plugin type and the
fault threshold. -/
def sampleDigest (c : CCIPHomeOCR3Config) : Bytes32 :=
  ⟨List.replicate 30 0 ++ [Fin.ofNat c.PluginType, Fin.ofNat (c.FRoleDON + 1)], by simp⟩

/-- The registry in which no key is known. -/
def emptyRegistry : Registry := fun _ => none

/-- A sample stream of fresh addresses: the `k`-th one is 20 bytes of value `k mod 256`. -/
def sampleAddress (k : Nat) : List Byte := List.replicate 20 (Fin.ofNat k)

/-- Four sample peer ids. -/
def samplePeers : List Bytes32 := [samplePeerID 1, samplePeerID 2, samplePeerID 3, samplePeerID 4]

/-- A sample config: fault threshold 1 on four nodes. -/
def sampleConfig : CCIPHomeOCR3Config :=
  ocr3ConfigFor sampleAddress 1 1 samplePeers PluginType.Commit

/-- A sample capability id: the bytes of `ccip` followed by zeros. -/
def sampleCapabilityID : Bytes32 := copy32 [99, 99, 105, 112]

/-- A sample notion of a valid config: a positive fault threshold `f` and at least `3 f + 1`
nodes. -/
def sampleValid (c : CCIPHomeOCR3Config) : Bool :=
  decide (0 < c.FRoleDON ∧ 3 * c.FRoleDON + 1 ≤ c.Nodes.length)

/-- A sample capabilities registry; its state is the list of DON identifiers of the `ConfigSet`
events emitted so far. `AddDON` wants `0 < f < len(nodes)` and creates the DON after the
largest identifier; `UpdateDON` wants the same of a DON that exists. -/
def sampleCapReg : CapabilitiesRegistry (List Nat) where
  FilterConfigSet := fun s => s
  AddDON := fun s nodes _ _ _ f =>
    if 0 < f ∧ f < nodes.length then some (s ++ [maxDonID s + 1]) else none
  UpdateDON := fun s donId nodes _ _ f =>
    if donId ∈ s ∧ 0 < f ∧ f < nodes.length then some (s ++ [donId]) else none

/-- The 64-character hex string `abab...ab`. -/
def hexAB : GoString := (List.replicate 32 [97, 98]).flatten

/-- The 64-character hex string `0102...20` (the bytes 1 to 32). -/
def hexCount : GoString :=
  [48, 49, 48, 50, 48, 51, 48, 52, 48, 53, 48, 54, 48, 55, 48, 56,
   48, 57, 48, 97, 48, 98, 48, 99, 48, 100, 48, 101, 48, 102, 49, 48,
   49, 49, 49, 50, 49, 51, 49, 52, 49, 53, 49, 54, 49, 55, 49, 56,
   49, 57, 49, 65, 49, 66, 49, 67, 49, 68, 49, 69, 49, 70, 50, 48]

/-- A sample node roster entry. -/
def sampleNode : RMNHomeNode := ⟨copy32 [171], copy32 [205]⟩

/-! ## The comparator is the lexicographic order -/

theorem Bytes32.ext_at {a b : Bytes32} (h : ∀ (k : Nat) (hk : k < 32), a.at k hk = b.at k hk) :
    a = b := by
  cases a with
  | mk as ha =>
    cases b with
    | mk bs hb =>
      have hl : as = bs := by
        apply List.ext_get (by rw [ha, hb])
        intro n h1 h2
        have := h n (by rw [ha] at h1; exact h1)
        simpa [Bytes32.at] using this
      subst hl
      rfl

theorem lessFrom_iff (a b : Bytes32) (n : Nat) (hn : n ≤ 32) :
    (lessFrom a b n = true ↔
      ∃ (i : Nat) (hi : i < 32), 32 - n ≤ i ∧
        (∀ (j : Nat) (hj : j < i), 32 - n ≤ j →
          a.at j (Nat.lt_trans hj hi) = b.at j (Nat.lt_trans hj hi)) ∧
        a.at i hi < b.at i hi) := by
  induction n with
  | zero =>
    unfold lessFrom
    constructor
    · intro h; cases h
    · rintro ⟨i, hi, hki, _⟩; omega
  | succ n ih =>
    have hk32 : 32 - (n + 1) < 32 := by omega
    have hstep : 32 - n = (32 - (n + 1)) + 1 := by omega
    unfold lessFrom
    simp only [hk32, dite_true]
    generalize 32 - (n + 1) = k at hk32 hstep
    by_cases h1 : a.at k hk32 < b.at k hk32
    · simp only [h1, if_true, true_iff]
      exact ⟨k, hk32, le_refl k, fun j hj hkj => absurd hj (by omega), h1⟩
    · simp only [h1, if_false]
      by_cases h2 : a.at k hk32 > b.at k hk32
      · simp only [h2, if_true]
        constructor
        · intro h; cases h
        · rintro ⟨i, hi, hki, heq, hlt⟩
          rcases Nat.eq_or_lt_of_le hki with hik | hik
          · subst hik; exact absurd hlt h1
          · have := heq k hik (le_refl k)
            rw [this] at h2
            exact absurd h2 (lt_irrefl _)
      · simp only [h2, if_false]
        have heqk : a.at k hk32 = b.at k hk32 := le_antisymm (not_lt.mp h2) (not_lt.mp h1)
        rw [ih (by omega), hstep]
        constructor
        · rintro ⟨i, hi, hki, heq, hlt⟩
          refine ⟨i, hi, by omega, ?_, hlt⟩
          intro j hj hkj
          rcases Nat.eq_or_lt_of_le hkj with hjk | hjk
          · subst hjk; exact heqk
          · exact heq j hj hjk
        · rintro ⟨i, hi, hki, heq, hlt⟩
          rcases Nat.eq_or_lt_of_le hki with hik | hik
          · subst hik; exact absurd hlt h1
          · exact ⟨i, hi, hik, fun j hj hkj => heq j hj (by omega), hlt⟩

theorem less_iff_lexLT (a b : Bytes32) : less a b = true ↔ LexLT a b := by
  unfold less LexLT
  rw [lessFrom_iff a b 32 (le_refl 32)]
  constructor
  · rintro ⟨i, hi, _, heq, hlt⟩
    exact ⟨i, hi, fun j hj => heq j hj (Nat.zero_le j), hlt⟩
  · rintro ⟨i, hi, heq, hlt⟩
    exact ⟨i, hi, Nat.zero_le i, fun j hj _ => heq j hj, hlt⟩

theorem lexLT_irrefl (a : Bytes32) : ¬ LexLT a a := by
  rintro ⟨k, hk, _, hlt⟩
  exact lt_irrefl _ hlt

theorem lexLT_trans {a b c : Bytes32} (hab : LexLT a b) (hbc : LexLT b c) : LexLT a c := by
  obtain ⟨k1, hk1, he1, hl1⟩ := hab
  obtain ⟨k2, hk2, he2, hl2⟩ := hbc
  rcases Nat.lt_trichotomy k1 k2 with h | h | h
  · refine ⟨k1, hk1, fun j hj => ?_, ?_⟩
    · rw [he1 j hj, he2 j (by omega)]
    · rw [← he2 k1 h]; exact hl1
  · subst h
    refine ⟨k1, hk1, fun j hj => ?_, lt_trans hl1 hl2⟩
    rw [he1 j hj, he2 j hj]
  · refine ⟨k2, hk2, fun j hj => ?_, ?_⟩
    · rw [he1 j (by omega), he2 j hj]
    · rw [he1 k2 h]; exact hl2

theorem lexLT_trichotomy (a b : Bytes32) : LexLT a b ∨ a = b ∨ LexLT b a := by
  by_cases hab : a = b
  · exact Or.inr (Or.inl hab)
  · have hex : ∃ k : Nat, ∃ hk : k < 32, a.at k hk ≠ b.at k hk := by
      by_contra hne
      apply hab
      apply Bytes32.ext_at
      intro k hk
      by_contra hk2
      exact hne ⟨k, hk, hk2⟩
    classical
    obtain ⟨hk, hne⟩ := Nat.find_spec hex
    have hmin : ∀ (j : Nat) (hj : j < Nat.find hex),
        a.at j (Nat.lt_trans hj hk) = b.at j (Nat.lt_trans hj hk) := by
      intro j hj
      by_contra hjne
      exact Nat.find_min hex hj ⟨Nat.lt_trans hj hk, hjne⟩
    rcases lt_or_gt_of_ne hne with hlt | hgt
    · exact Or.inl ⟨Nat.find hex, hk, hmin, hlt⟩
    · exact Or.inr (Or.inr ⟨Nat.find hex, hk, fun j hj => (hmin j hj).symm, hgt⟩)

theorem less_irrefl (a : Bytes32) : less a a = false := by
  cases h : less a a with
  | false => rfl
  | true => exact absurd ((less_iff_lexLT a a).mp h) (lexLT_irrefl a)

theorem less_trans {a b c : Bytes32} (hab : less a b = true) (hbc : less b c = true) :
    less a c = true :=
  (less_iff_lexLT a c).mpr (lexLT_trans ((less_iff_lexLT a b).mp hab) ((less_iff_lexLT b c).mp hbc))

theorem less_asymm {a b : Bytes32} (hab : less a b = true) : less b a = false := by
  cases h : less b a with
  | false => rfl
  | true =>
    have := less_trans hab h
    rw [less_irrefl] at this
    cases this

theorem less_total {a b : Bytes32} (hab : less a b = false) (hba : less b a = false) : a = b := by
  rcases lexLT_trichotomy a b with h | h | h
  · rw [(less_iff_lexLT a b).mpr h] at hab; cases hab
  · exact h
  · rw [(less_iff_lexLT b a).mpr h] at hba; cases hba

theorem less_strictWeakOrdering : StrictWeakOrdering less := by
  refine ⟨less_irrefl, fun a b c => less_trans, ?_⟩
  intro a b c hab hbc
  cases hac : less a c with
  | false => rfl
  | true =>
    cases hba : less b a with
    | false =>
      have := less_total hab hba
      subst this
      rw [hac] at hbc; cases hbc
    | true =>
      have := less_trans hba hac
      rw [this] at hbc; cases hbc

theorem not_less_iff_lexLE (a b : Bytes32) : less b a = false ↔ LexLE a b := by
  unfold LexLE
  constructor
  · intro h
    rcases lexLT_trichotomy a b with h1 | h1 | h1
    · exact Or.inr h1
    · exact Or.inl h1
    · rw [(less_iff_lexLT b a).mpr h1] at h; cases h
  · rintro (h | h)
    · subst h; exact less_irrefl a
    · exact less_asymm ((less_iff_lexLT a b).mpr h)

/-! ## Sorting -/

theorem sinkLeft_perm (lt : Bytes32 → Bytes32 → Bool) (x : Bytes32) (l : List Bytes32) :
    (sinkLeft lt x l).Perm (x :: l) := by
  induction l with
  | nil => exact List.Perm.refl _
  | cons p ps ih =>
    unfold sinkLeft
    by_cases h : lt x p = true
    · simp only [h, if_true]
      exact (List.Perm.cons p ih).trans (List.Perm.swap x p ps)
    · simp only [h, if_false]
      exact List.Perm.refl _

theorem sinkLeft_pairwise {lt : Bytes32 → Bytes32 → Bool} (hlt : StrictWeakOrdering lt)
    (x : Bytes32) (l : List Bytes32) (hl : l.Pairwise (fun a b => lt a b = false)) :
    (sinkLeft lt x l).Pairwise (fun a b => lt a b = false) := by
  obtain ⟨hirr, htr, hneg⟩ := hlt
  induction l with
  | nil => simp [sinkLeft]
  | cons p ps ih =>
    rw [List.pairwise_cons] at hl
    unfold sinkLeft
    by_cases h : lt x p = true
    · simp only [h, if_true]
      rw [List.pairwise_cons]
      refine ⟨?_, ih hl.2⟩
      intro q hq
      have hq2 : q ∈ x :: ps := (sinkLeft_perm lt x ps).subset hq
      rcases List.mem_cons.mp hq2 with hqx | hqps
      · subst hqx
        cases hpq : lt p q with
        | false => rfl
        | true =>
          have := htr q p q h hpq
          rw [hirr] at this
          cases this
      · exact hl.1 q hqps
    · have hxp : lt x p = false := Bool.eq_false_iff.mpr h
      rw [if_neg h, List.pairwise_cons]
      refine ⟨?_, List.pairwise_cons.mpr hl⟩
      intro q hq
      rcases List.mem_cons.mp hq with hqp | hqps
      · subst hqp; exact hxp
      · exact hneg x p q hxp (hl.1 q hqps)

theorem foldl_sinkLeft_spec {lt : Bytes32 → Bytes32 → Bool} (hlt : StrictWeakOrdering lt)
    (data : List Bytes32) : ∀ ordered : List Bytes32,
    ordered.Pairwise (fun a b => lt a b = false) →
    (data.foldl (fun o x => sinkLeft lt x o) ordered).Perm (data.reverse ++ ordered) ∧
    (data.foldl (fun o x => sinkLeft lt x o) ordered).Pairwise (fun a b => lt a b = false) := by
  induction data with
  | nil => intro ordered ho; exact ⟨by simp, ho⟩
  | cons x xs ih =>
    intro ordered ho
    have := ih (sinkLeft lt x ordered) (sinkLeft_pairwise hlt x ordered ho)
    refine ⟨?_, this.2⟩
    simp only [List.foldl_cons, List.reverse_cons, List.append_assoc, List.singleton_append]
    exact this.1.trans (List.Perm.append_left _ (sinkLeft_perm lt x ordered))

theorem insertionSort_func_contract : SortSliceContract insertionSort_func := by
  intro lt xs hlt
  have h := foldl_sinkLeft_spec hlt xs [] List.Pairwise.nil
  unfold insertionSort_func
  constructor
  · refine (List.reverse_perm _).trans (h.1.trans ?_)
    simp
  · rw [List.pairwise_reverse]
    exact h.2

theorem foldl_append_eq_map (peerIDOf : Int → Bytes32) (ints : List Int) :
    ∀ acc : List Bytes32,
      ints.foldl (fun acc i => acc ++ [peerIDOf i]) acc = acc ++ ints.map peerIDOf := by
  induction ints with
  | nil => intro acc; simp
  | cons i is ih => intro acc; simp [ih]

theorem P2pIDsFromInts_eq (sortSlice : (Bytes32 → Bytes32 → Bool) → List Bytes32 → List Bytes32)
    (peerIDOf : Int → Bytes32) (ints : List Int) :
    P2pIDsFromInts sortSlice peerIDOf ints = sortSlice less (ints.map peerIDOf) := by
  unfold P2pIDsFromInts
  simp [foldl_append_eq_map]

/-! ## Claims on `P2pIDsFromInts` -/

/-- C3: the comparator of `P2pIDsFromInts` is a strict total order on 32-byte identifiers: it is
irreflexive and transitive, for every `a` and `b` exactly one of `less a b`, `a = b`,
`less b a` holds, and it is the lexicographic order, most significant byte first. -/
theorem less_strict_total_order :
    (∀ a : Bytes32, less a a = false) ∧
    (∀ a b c : Bytes32, less a b = true → less b c = true → less a c = true) ∧
    (∀ a b : Bytes32,
      (less a b = true ∧ a ≠ b ∧ less b a = false) ∨
      (less a b = false ∧ a = b ∧ less b a = false) ∨
      (less a b = false ∧ a ≠ b ∧ less b a = true)) ∧
    (∀ a b : Bytes32, less a b = true ↔ LexLT a b) := by
  refine ⟨less_irrefl, fun a b c => less_trans, ?_, less_iff_lexLT⟩
  intro a b
  have hne : ∀ x y : Bytes32, less x y = true → x ≠ y := by
    intro x y hxy hEq
    subst hEq
    rw [less_irrefl] at hxy
    cases hxy
  cases hab : less a b with
  | true => exact Or.inl ⟨rfl, hne a b hab, less_asymm hab⟩
  | false =>
    cases hba : less b a with
    | true => exact Or.inr (Or.inr ⟨rfl, fun h => hne b a hba h.symm, rfl⟩)
    | false => exact Or.inr (Or.inl ⟨rfl, less_total hab hba, rfl⟩)

/-- C1: whatever routine meeting the contract of `sort.Slice` is used, `P2pIDsFromInts` returns
the ascending sort of the derived peer identifiers: same length and same multiset as the list
of derived identifiers, and every adjacent pair is in lexicographic order, most significant
byte first. -/
theorem P2pIDsFromInts_sorted
    (sortSlice : (Bytes32 → Bytes32 → Bool) → List Bytes32 → List Bytes32)
    (hsort : SortSliceContract sortSlice) (peerIDOf : Int → Bytes32) (ints : List Int) :
    (P2pIDsFromInts sortSlice peerIDOf ints).length = ints.length ∧
    (P2pIDsFromInts sortSlice peerIDOf ints).Perm (ints.map peerIDOf) ∧
    ∀ (i : Nat) (h : i + 1 < (P2pIDsFromInts sortSlice peerIDOf ints).length),
      LexLE ((P2pIDsFromInts sortSlice peerIDOf ints).get ⟨i, Nat.lt_of_succ_lt h⟩)
        ((P2pIDsFromInts sortSlice peerIDOf ints).get ⟨i + 1, h⟩) := by
  rw [P2pIDsFromInts_eq]
  obtain ⟨hperm, hpw⟩ := hsort less (ints.map peerIDOf) less_strictWeakOrdering
  refine ⟨by rw [hperm.length_eq, List.length_map], hperm, ?_⟩
  intro i h
  rw [← not_less_iff_lexLE]
  exact List.pairwise_iff_get.mp hpw ⟨i, Nat.lt_of_succ_lt h⟩ ⟨i + 1, h⟩ (by simp [Fin.lt_def])

/-- The theorem `P2pIDsFromInts_sorted` applied to the insertion sort of the standard library,
the sample key derivation and the integers 3, 1, 3, 2. -/
theorem P2pIDsFromInts_sorted_witness :
    SortSliceContract insertionSort_func ∧
    (P2pIDsFromInts insertionSort_func samplePeerID [3, 1, 3, 2]).length = 4 ∧
    (P2pIDsFromInts insertionSort_func samplePeerID [3, 1, 3, 2]).Perm
      ([3, 1, 3, 2].map samplePeerID) ∧
    ∀ (i : Nat) (h : i + 1 < (P2pIDsFromInts insertionSort_func samplePeerID [3, 1, 3, 2]).length),
      LexLE ((P2pIDsFromInts insertionSort_func samplePeerID [3, 1, 3, 2]).get
          ⟨i, Nat.lt_of_succ_lt h⟩)
        ((P2pIDsFromInts insertionSort_func samplePeerID [3, 1, 3, 2]).get ⟨i + 1, h⟩) :=
  ⟨insertionSort_func_contract,
    P2pIDsFromInts_sorted insertionSort_func insertionSort_func_contract samplePeerID
      [3, 1, 3, 2]⟩

/-- C2: `P2pIDsFromInts` is independent of the input order: on a permutation of the input it
returns the same list, element for element, whatever routine meeting the contract of
`sort.Slice` is used, duplicates included. -/
theorem P2pIDsFromInts_perm
    (sortSlice : (Bytes32 → Bytes32 → Bool) → List Bytes32 → List Bytes32)
    (hsort : SortSliceContract sortSlice) (peerIDOf : Int → Bytes32) (xs ys : List Int)
    (hperm : ys.Perm xs) :
    P2pIDsFromInts sortSlice peerIDOf ys = P2pIDsFromInts sortSlice peerIDOf xs := by
  rw [P2pIDsFromInts_eq, P2pIDsFromInts_eq]
  obtain ⟨hpy, hsy⟩ := hsort less (ys.map peerIDOf) less_strictWeakOrdering
  obtain ⟨hpx, hsx⟩ := hsort less (xs.map peerIDOf) less_strictWeakOrdering
  haveI : IsAntisymm Bytes32 (fun a b => less b a = false) :=
    ⟨fun a b hab hba => less_total hba hab⟩
  exact List.eq_of_perm_of_sorted (hpy.trans ((hperm.map peerIDOf).trans hpx.symm)) hsy hsx

/-- The theorem `P2pIDsFromInts_perm` applied to the insertion sort of the standard library and
two orders of the integers 3, 1, 3, 2. -/
theorem P2pIDsFromInts_perm_witness :
    SortSliceContract insertionSort_func ∧
    ([1, 3, 2, 3] : List Int).Perm [3, 1, 3, 2] ∧
    P2pIDsFromInts insertionSort_func samplePeerID [1, 3, 2, 3] =
      P2pIDsFromInts insertionSort_func samplePeerID [3, 1, 3, 2] :=
  ⟨insertionSort_func_contract, by decide,
    P2pIDsFromInts_perm insertionSort_func insertionSort_func_contract samplePeerID
      [3, 1, 3, 2] [1, 3, 2, 3] (by decide)⟩

/-! ## Claims on the DON identifier -/

theorem foldl_max_step (ids : List Nat) : ∀ m : Nat,
    ids.foldl (fun m d => if d > m then d else m) m = max m (ids.foldr max 0) := by
  induction ids with
  | nil => intro m; simp
  | cons d ds ih =>
    intro m
    simp only [List.foldl_cons, List.foldr_cons]
    rw [ih]
    by_cases h : d > m
    · simp only [h, if_true]; omega
    · simp only [h, if_false]; omega

theorem maxDonID_eq (ids : List Nat) : maxDonID ids = ids.foldr max 0 := by
  unfold maxDonID
  rw [foldl_max_step]
  simp

theorem le_foldr_max (ids : List Nat) : ∀ d ∈ ids, d ≤ ids.foldr max 0 := by
  induction ids with
  | nil => intro d hd; cases hd
  | cons x xs ih =>
    intro d hd
    simp only [List.foldr_cons]
    rcases List.mem_cons.mp hd with h | h
    · subst h; exact le_max_left _ _
    · exact le_trans (ih d h) (le_max_right _ _)

theorem foldr_max_lt (ids : List Nat) (b : Nat) (hb : 0 < b) (h : ∀ d ∈ ids, d < b) :
    ids.foldr max 0 < b := by
  induction ids with
  | nil => simpa using hb
  | cons x xs ih =>
    simp only [List.foldr_cons]
    have h1 := h x (List.mem_cons_self x xs)
    have h2 := ih (fun d hd => h d (List.mem_cons_of_mem x hd))
    exact max_lt h1 h2

/-- C4, amended: for every sequence of DON identifiers that are all below `2^32 - 1`, the
identifier `AddDONToRegistry` computes is one more than their maximum (1 when there are none)
and is strictly greater than each of them. -/
theorem nextDonID_spec (donIds : List Nat) (hb : ∀ d ∈ donIds, d < 2 ^ 32 - 1) :
    nextDonID donIds = 1 + donIds.foldr max 0 ∧
    (donIds = [] → nextDonID donIds = 1) ∧
    (∀ d ∈ donIds, d < nextDonID donIds) ∧
    nextDonID donIds < 2 ^ 32 := by
  have hlt : donIds.foldr max 0 < 2 ^ 32 - 1 := foldr_max_lt donIds _ (by norm_num) hb
  have hEq : nextDonID donIds = 1 + donIds.foldr max 0 := by
    unfold nextDonID
    rw [maxDonID_eq, Nat.mod_eq_of_lt (by omega)]
    omega
  refine ⟨hEq, ?_, ?_, ?_⟩
  · intro hnil
    rw [hEq, hnil]
    rfl
  · intro d hd
    rw [hEq]
    have := le_foldr_max donIds d hd
    omega
  · rw [hEq]; omega

/-- The theorem `nextDonID_spec` applied to the identifiers 1, 2, 7, 3. -/
theorem nextDonID_spec_witness :
    (∀ d ∈ [1, 2, 7, 3], d < 2 ^ 32 - 1) ∧
    nextDonID [1, 2, 7, 3] = 1 + [1, 2, 7, 3].foldr max 0 ∧
    ([1, 2, 7, 3] = [] → nextDonID [1, 2, 7, 3] = 1) ∧
    (∀ d ∈ [1, 2, 7, 3], d < nextDonID [1, 2, 7, 3]) ∧
    nextDonID [1, 2, 7, 3] < 2 ^ 32 :=
  ⟨by decide, nextDonID_spec [1, 2, 7, 3] (by decide)⟩

/-- C4 as stated fails on the largest 32-bit identifier: after the single identifier
`2^32 - 1` the computed identifier wraps to 0, which is neither one more than the maximum nor
greater than the identifier already assigned. -/
theorem nextDonID_wraps :
    (∀ d ∈ [4294967295], d < 2 ^ 32) ∧
    nextDonID [4294967295] = 0 ∧
    nextDonID [4294967295] ≠ 1 + [4294967295].foldr max 0 ∧
    ¬ (∀ d ∈ [4294967295], d < nextDonID [4294967295]) := by
  refine ⟨by decide, by decide, by decide, ?_⟩
  intro h
  have := h 4294967295 (List.mem_singleton.mpr rfl)
  revert this
  decide

/-! ## Claims on the registry sequence -/

theorem getAllConfigs_update_same (reg : Registry) (k : Key) (sl : Slots) :
    GetAllConfigs (Function.update reg k (some sl)) k = sl := by
  simp [GetAllConfigs]

theorem getAllConfigs_update_other (reg : Registry) (k k2 : Key) (sl : Option Slots)
    (h : k2 ≠ k) : GetAllConfigs (Function.update reg k sl) k2 = GetAllConfigs reg k2 := by
  simp [GetAllConfigs, Function.update_noteq h]

theorem setCandidate_empty (digest : CCIPHomeOCR3Config → Bytes32)
    (valid : CCIPHomeOCR3Config → Bool) (reg : Registry) (k : Key)
    (config : CCIPHomeOCR3Config) (hvalid : valid config = true)
    (hempty : GetAllConfigs reg k = ⟨none, none⟩) :
    SetCandidate digest valid reg k config zeroDigest =
      Except.ok (Function.update reg k (some ⟨some config, none⟩)) := by
  simp [SetCandidate, hvalid, hempty, slotDigest]

theorem getCandidateDigest_update (digest : CCIPHomeOCR3Config → Bytes32) (reg : Registry)
    (k : Key) (sl : Slots) :
    GetCandidateDigest digest (Function.update reg k (some sl)) k =
      Except.ok (slotDigest digest sl.candidate) := by
  simp [GetCandidateDigest]

theorem promote_after_set (digest : CCIPHomeOCR3Config → Bytes32) (reg : Registry) (k : Key)
    (config : CCIPHomeOCR3Config) :
    PromoteCandidateAndRevokeActive digest (Function.update reg k (some ⟨some config, none⟩)) k
        (digest config) zeroDigest =
      Except.ok (Function.update reg k (some ⟨none, some config⟩)) := by
  simp [PromoteCandidateAndRevokeActive, slotDigest]

theorem addDONStep_empty {σ : Type} (digest : CCIPHomeOCR3Config → Bytes32)
    (valid : CCIPHomeOCR3Config → Bool) (capReg : CapabilitiesRegistry σ)
    (newAddress : Nat → List Byte) (ccipCapabilityID : Bytes32)
    (donID chainSelector f : Nat) (p2pIDs : List Bytes32)
    (s s1 s2 : σ) (reg : Registry) (pluginType : PluginType)
    (hvalid : valid (ocr3ConfigFor newAddress chainSelector f p2pIDs pluginType) = true)
    (hempty : GetAllConfigs reg (donID, pluginType.toUInt8) = ⟨none, none⟩)
    (hcand : candidateAnswer capReg s ccipCapabilityID donID f p2pIDs
      (ocr3ConfigFor newAddress chainSelector f p2pIDs pluginType) pluginType = some s1)
    (hprom : capReg.UpdateDON s1 donID p2pIDs
      (promotionConfiguration ccipCapabilityID donID
        (ocr3ConfigFor newAddress chainSelector f p2pIDs pluginType)
        (digest (ocr3ConfigFor newAddress chainSelector f p2pIDs pluginType))) false f = some s2) :
    addDONStep digest valid capReg newAddress ccipCapabilityID donID chainSelector f p2pIDs
        (s, reg) pluginType =
      Except.ok (s2, Function.update reg (donID, pluginType.toUInt8)
        (some ⟨none, some (ocr3ConfigFor newAddress chainSelector f p2pIDs pluginType)⟩)) := by
  have hpt : (ocr3ConfigFor newAddress chainSelector f p2pIDs pluginType).PluginType =
      pluginType.toUInt8 := rfl
  unfold addDONStep
  simp only [hcand, donTransaction, setCandidateConfiguration, promotionConfiguration,
    List.foldlM_cons, List.foldlM_nil, executeCall, hpt,
    setCandidate_empty digest valid reg _ _ hvalid hempty,
    requireNoError, bind, Except.bind, pure, Except.pure, getAllConfigs_update_same,
    requireEqual, getCandidateDigest_update, slotDigest, if_true]
  have hprom2 := hprom
  simp only [promotionConfiguration, hpt] at hprom2
  simp only [hprom2, promote_after_set, getAllConfigs_update_same, if_true]

/-- C5 (on the registry as the specification describes it): for every valid config `C` and
every key `K` whose two slots are empty, `SetCandidate K C zero` succeeds and the candidate
read back is `C`; promoting with the candidate digest then read and the zero digest succeeds
and leaves `active = C`, `candidate` empty. `AddDONToRegistry` issues this sequence for the
Commit and then the Exec plugin type of the new DON: when its two configs are valid, the two
keys are empty and the capabilities registry accepts the four DON transactions, it passes all
its checks and leaves each config active. -/
theorem setCandidate_promote_sequence {σ : Type} (digest : CCIPHomeOCR3Config → Bytes32)
    (valid : CCIPHomeOCR3Config → Bool) (reg : Registry)
    (K : Key) (C : CCIPHomeOCR3Config) (capReg : CapabilitiesRegistry σ)
    (newAddress : Nat → List Byte) (ccipCapabilityID : Bytes32)
    (chainSelector f : Nat) (p2pIDs : List Bytes32) (s0 s1 s2 s3 s4 : σ)
    (hC : valid C = true)
    (hK : GetAllConfigs reg K = ⟨none, none⟩)
    (hvalid : ∀ pt : PluginType,
      valid (ocr3ConfigFor newAddress chainSelector f p2pIDs pt) = true)
    (hDon : ∀ pt : PluginType,
      GetAllConfigs reg (nextDonID (capReg.FilterConfigSet s0), pt.toUInt8) = ⟨none, none⟩)
    (hAdd : capReg.AddDON s0 p2pIDs
      (setCandidateConfiguration ccipCapabilityID (nextDonID (capReg.FilterConfigSet s0))
        (ocr3ConfigFor newAddress chainSelector f p2pIDs PluginType.Commit)) false false f =
        some s1)
    (hPromCommit : capReg.UpdateDON s1 (nextDonID (capReg.FilterConfigSet s0)) p2pIDs
      (promotionConfiguration ccipCapabilityID (nextDonID (capReg.FilterConfigSet s0))
        (ocr3ConfigFor newAddress chainSelector f p2pIDs PluginType.Commit)
        (digest (ocr3ConfigFor newAddress chainSelector f p2pIDs PluginType.Commit))) false f =
        some s2)
    (hSetExec : capReg.UpdateDON s2 (nextDonID (capReg.FilterConfigSet s0)) p2pIDs
      (setCandidateConfiguration ccipCapabilityID (nextDonID (capReg.FilterConfigSet s0))
        (ocr3ConfigFor newAddress chainSelector f p2pIDs PluginType.Exec)) false f = some s3)
    (hPromExec : capReg.UpdateDON s3 (nextDonID (capReg.FilterConfigSet s0)) p2pIDs
      (promotionConfiguration ccipCapabilityID (nextDonID (capReg.FilterConfigSet s0))
        (ocr3ConfigFor newAddress chainSelector f p2pIDs PluginType.Exec)
        (digest (ocr3ConfigFor newAddress chainSelector f p2pIDs PluginType.Exec))) false f =
        some s4) :
    (∃ reg1 reg2 : Registry, ∃ d : Bytes32,
      SetCandidate digest valid reg K C zeroDigest = Except.ok reg1 ∧
      (GetAllConfigs reg1 K).candidate = some C ∧
      GetCandidateDigest digest reg1 K = Except.ok d ∧
      PromoteCandidateAndRevokeActive digest reg1 K d zeroDigest = Except.ok reg2 ∧
      GetAllConfigs reg2 K = { candidate := none, active := some C }) ∧
    (∃ regEnd : Registry,
      AddDONToRegistry digest valid capReg newAddress ccipCapabilityID chainSelector f p2pIDs
        (s0, reg) = Except.ok (s4, regEnd) ∧
      ∀ pt : PluginType,
        GetAllConfigs regEnd (nextDonID (capReg.FilterConfigSet s0), pt.toUInt8) =
          { candidate := none
            active := some (ocr3ConfigFor newAddress chainSelector f p2pIDs pt) }) := by
  constructor
  · refine ⟨Function.update reg K (some ⟨some C, none⟩),
      Function.update reg K (some ⟨none, some C⟩), digest C,
      setCandidate_empty digest valid reg K C hC hK, ?_, ?_, promote_after_set digest reg K C, ?_⟩
    · rw [getAllConfigs_update_same]
    · rw [getCandidateDigest_update]; rfl
    · rw [getAllConfigs_update_same]
  · generalize hd : nextDonID (capReg.FilterConfigSet s0) = donID at *
    have hne : ((donID, PluginType.Exec.toUInt8) : Key) ≠ (donID, PluginType.Commit.toUInt8) := by
      intro h
      have h2 : PluginType.Exec.toUInt8 = PluginType.Commit.toUInt8 := congrArg Prod.snd h
      exact absurd h2 (by decide)
    have h1 := addDONStep_empty digest valid capReg newAddress ccipCapabilityID donID
      chainSelector f p2pIDs s0 s1 s2 reg PluginType.Commit (hvalid PluginType.Commit)
      (hDon PluginType.Commit) (by simpa [candidateAnswer] using hAdd) hPromCommit
    have h2 := addDONStep_empty digest valid capReg newAddress ccipCapabilityID donID
      chainSelector f p2pIDs s2 s3 s4
      (Function.update reg (donID, PluginType.Commit.toUInt8)
        (some ⟨none, some (ocr3ConfigFor newAddress chainSelector f p2pIDs PluginType.Commit)⟩))
      PluginType.Exec (hvalid PluginType.Exec)
      (by rw [getAllConfigs_update_other _ _ _ _ hne]; exact hDon PluginType.Exec)
      (by simpa [candidateAnswer] using hSetExec) hPromExec
    refine ⟨Function.update
        (Function.update reg (donID, PluginType.Commit.toUInt8)
          (some ⟨none, some (ocr3ConfigFor newAddress chainSelector f p2pIDs PluginType.Commit)⟩))
        (donID, PluginType.Exec.toUInt8)
        (some ⟨none, some (ocr3ConfigFor newAddress chainSelector f p2pIDs PluginType.Exec)⟩),
      ?_, ?_⟩
    · unfold AddDONToRegistry
      simp only [hd, List.foldlM_cons, List.foldlM_nil, h1, bind, Except.bind, h2, pure,
        Except.pure]
    · intro pt
      cases pt with
      | Commit =>
        rw [getAllConfigs_update_other _ _ _ _ hne.symm, getAllConfigs_update_same]
      | Exec => rw [getAllConfigs_update_same]

/-- The theorem `setCandidate_promote_sequence` applied to the empty registry, the sample
digest and notion of validity, the sample config, and the sample capabilities registry with no
DON yet, fault threshold 1 and four sample peer ids: the new DON gets the identifier 1. -/
theorem setCandidate_promote_sequence_witness :
    sampleValid sampleConfig = true ∧
    GetAllConfigs emptyRegistry (5, 0) = ⟨none, none⟩ ∧
    (∀ pt : PluginType, sampleValid (ocr3ConfigFor sampleAddress 1 1 samplePeers pt) = true) ∧
    (∀ pt : PluginType,
      GetAllConfigs emptyRegistry (nextDonID (sampleCapReg.FilterConfigSet []), pt.toUInt8) =
        ⟨none, none⟩) ∧
    sampleCapReg.AddDON [] samplePeers
      (setCandidateConfiguration sampleCapabilityID (nextDonID (sampleCapReg.FilterConfigSet []))
        (ocr3ConfigFor sampleAddress 1 1 samplePeers PluginType.Commit)) false false 1 =
        some [1] ∧
    sampleCapReg.UpdateDON [1] (nextDonID (sampleCapReg.FilterConfigSet [])) samplePeers
      (promotionConfiguration sampleCapabilityID (nextDonID (sampleCapReg.FilterConfigSet []))
        (ocr3ConfigFor sampleAddress 1 1 samplePeers PluginType.Commit)
        (sampleDigest (ocr3ConfigFor sampleAddress 1 1 samplePeers PluginType.Commit))) false 1 =
        some [1, 1] ∧
    sampleCapReg.UpdateDON [1, 1] (nextDonID (sampleCapReg.FilterConfigSet [])) samplePeers
      (setCandidateConfiguration sampleCapabilityID (nextDonID (sampleCapReg.FilterConfigSet []))
        (ocr3ConfigFor sampleAddress 1 1 samplePeers PluginType.Exec)) false 1 =
        some [1, 1, 1] ∧
    sampleCapReg.UpdateDON [1, 1, 1] (nextDonID (sampleCapReg.FilterConfigSet [])) samplePeers
      (promotionConfiguration sampleCapabilityID (nextDonID (sampleCapReg.FilterConfigSet []))
        (ocr3ConfigFor sampleAddress 1 1 samplePeers PluginType.Exec)
        (sampleDigest (ocr3ConfigFor sampleAddress 1 1 samplePeers PluginType.Exec))) false 1 =
        some [1, 1, 1, 1] ∧
    (∃ reg1 reg2 : Registry, ∃ d : Bytes32,
      SetCandidate sampleDigest sampleValid emptyRegistry (5, 0) sampleConfig zeroDigest =
        Except.ok reg1 ∧
      (GetAllConfigs reg1 (5, 0)).candidate = some sampleConfig ∧
      GetCandidateDigest sampleDigest reg1 (5, 0) = Except.ok d ∧
      PromoteCandidateAndRevokeActive sampleDigest reg1 (5, 0) d zeroDigest = Except.ok reg2 ∧
      GetAllConfigs reg2 (5, 0) = { candidate := none, active := some sampleConfig }) ∧
    (∃ regEnd : Registry,
      AddDONToRegistry sampleDigest sampleValid sampleCapReg sampleAddress sampleCapabilityID
        1 1 samplePeers ([], emptyRegistry) = Except.ok ([1, 1, 1, 1], regEnd) ∧
      ∀ pt : PluginType,
        GetAllConfigs regEnd (nextDonID (sampleCapReg.FilterConfigSet []), pt.toUInt8) =
          { candidate := none
            active := some (ocr3ConfigFor sampleAddress 1 1 samplePeers pt) }) :=
  ⟨by decide, rfl, fun _ => rfl, fun _ => rfl, by decide, by decide, by decide, by decide,
    setCandidate_promote_sequence sampleDigest sampleValid emptyRegistry (5, 0) sampleConfig
      sampleCapReg sampleAddress sampleCapabilityID 1 1 samplePeers
      [] [1] [1, 1] [1, 1, 1] [1, 1, 1, 1]
      (by decide) rfl (fun _ => rfl) (fun _ => rfl) (by decide) (by decide) (by decide)
      (by decide)⟩

/-! ## Hex decoding -/

set_option maxRecDepth 100000 in
theorem reverseHexTable_le_iff : ∀ c : Byte, ¬ (reverseHexTable c > 0x0f) ↔ IsHexDigit c := by
  decide

set_option maxRecDepth 100000 in
theorem reverseHexTable_val : ∀ c : Byte, IsHexDigit c →
    (reverseHexTable c).val = hexDigitValue c ∧ (reverseHexTable c).val < 16 := by
  decide

set_option maxRecDepth 100000 in
theorem nibbles_val_aux : ∀ a b : Fin 16,
    (((⟨a.val, by omega⟩ : Byte) <<< 4) ||| (⟨b.val, by omega⟩ : Byte)).val = 16 * a.val + b.val := by
  decide

theorem nibbles_val (a b : Byte) (ha : a.val < 16) (hb : b.val < 16) :
    ((a <<< 4) ||| b).val = 16 * a.val + b.val :=
  nibbles_val_aux ⟨a.val, ha⟩ ⟨b.val, hb⟩

theorem hexDecodeString_spec (n : Nat) : ∀ s : GoString, s.length ≤ n →
    (((hexDecodeString s).2 = none ↔ ValidHex s) ∧
      (ValidHex s → (hexDecodeString s).1.length = s.length / 2 ∧
        (hexDecodeString s).1.map Fin.val = hexBytes s)) := by
  induction n with
  | zero =>
    intro s hs
    have : s = [] := List.length_eq_zero.mp (Nat.le_zero.mp hs)
    subst this
    simp [hexDecodeString, ValidHex, hexBytes]
  | succ n ih =>
    intro s hs
    match s, hs with
    | [], _ => simp [hexDecodeString, ValidHex, hexBytes]
    | [p], _ =>
      constructor
      · unfold hexDecodeString
        by_cases h : reverseHexTable p > 0x0f <;> simp [h, ValidHex]
      · intro hv
        simp [ValidHex] at hv
    | p :: q :: rest, hs =>
      have hrest : rest.length ≤ n := by simp at hs; omega
      obtain ⟨ih1, ih2⟩ := ih rest hrest
      have hvalid : ValidHex (p :: q :: rest) ↔ IsHexDigit p ∧ IsHexDigit q ∧ ValidHex rest := by
        unfold ValidHex
        simp only [List.length_cons, List.mem_cons, forall_eq_or_imp]
        constructor
        · rintro ⟨hl, hp, hq, hr⟩
          exact ⟨hp, hq, by omega, hr⟩
        · rintro ⟨hp, hq, hl, hr⟩
          exact ⟨by omega, hp, hq, hr⟩
      unfold hexDecodeString
      by_cases hp : reverseHexTable p > 0x0f
      · have hp2 : ¬ IsHexDigit p := fun h => (reverseHexTable_le_iff p).mpr h hp
        simp only [hp, if_true, hvalid]
        constructor
        · constructor
          · intro h; cases h
          · intro h; exact absurd h.1 hp2
        · intro h; exact absurd h.1 hp2
      · have hp2 : IsHexDigit p := (reverseHexTable_le_iff p).mp hp
        by_cases hq : reverseHexTable q > 0x0f
        · have hq2 : ¬ IsHexDigit q := fun h => (reverseHexTable_le_iff q).mpr h hq
          simp only [hp, hq, if_true, if_false, hvalid]
          constructor
          · constructor
            · intro h; cases h
            · intro h; exact absurd h.2.1 hq2
          · intro h; exact absurd h.2.1 hq2
        · have hq2 : IsHexDigit q := (reverseHexTable_le_iff q).mp hq
          simp only [hp, hq, if_false, hvalid]
          constructor
          · rw [ih1]
            constructor
            · intro h; exact ⟨hp2, hq2, h⟩
            · intro h; exact h.2.2
          · rintro ⟨_, _, hr⟩
            obtain ⟨hlen, hbytes⟩ := ih2 hr
            constructor
            · simp only [List.length_cons, hlen]
              omega
            · have hpv := reverseHexTable_val p hp2
              have hqv := reverseHexTable_val q hq2
              simp only [List.map_cons, hbytes, hexBytes]
              rw [nibbles_val _ _ hpv.2 hqv.2, hpv.1, hqv.1]

theorem hexDecodeString_err_iff (s : GoString) : (hexDecodeString s).2 = none ↔ ValidHex s :=
  (hexDecodeString_spec s.length s (le_refl _)).1

theorem hexDecodeString_length (s : GoString) (h : ValidHex s) :
    (hexDecodeString s).1.length = s.length / 2 :=
  ((hexDecodeString_spec s.length s (le_refl _)).2 h).1

theorem hexDecodeString_bytes (s : GoString) (h : ValidHex s) :
    (hexDecodeString s).1.map Fin.val = hexBytes s :=
  ((hexDecodeString_spec s.length s (le_refl _)).2 h).2

theorem validHex_of_digits (s : GoString) (hlen : s.length = 64)
    (hd : ∀ c ∈ s, IsHexDigit c) : ValidHex s :=
  ⟨by rw [hlen], hd⟩

theorem copy32_bytes (l : List Byte) (h : l.length = 32) : (copy32 l).bytes = l := by
  unfold copy32
  apply List.ext_getElem
  · simp [h]
  · intro i h1 h2
    simp only [List.getElem_map, List.getElem_range]
    exact List.getD_eq_getElem l 0 h2

/-! ## Claims on `GenerateRMNHomeConfigs` -/

theorem generate_of_valid (peerID offchainPK offchainCfg : GoString) (chainSelector f : Nat)
    (observerBitmap : Int) (ho : ValidHex offchainPK) :
    GenerateRMNHomeConfigs peerID offchainPK offchainCfg chainSelector f observerBitmap =
      ({ Nodes := [{ PeerId := copy32 (hexDecodeString peerID).1,
                     OffchainPublicKey := copy32 (hexDecodeString offchainPK).1 }]
         OffchainConfig := offchainCfg },
       { SourceChains := [{ ChainSelector := chainSelector, FObserve := f,
                            ObserverNodesBitmap := observerBitmap }]
         OffchainConfig := offchainCfg },
       none) := by
  have h := (hexDecodeString_err_iff offchainPK).mpr ho
  unfold GenerateRMNHomeConfigs
  simp only [h]

theorem generate_of_invalid (peerID offchainPK offchainCfg : GoString) (chainSelector f : Nat)
    (observerBitmap : Int) (ho : ¬ ValidHex offchainPK) :
    ∃ e : HexError, (hexDecodeString offchainPK).2 = some e ∧
      GenerateRMNHomeConfigs peerID offchainPK offchainCfg chainSelector f observerBitmap =
        (⟨[], []⟩, ⟨[], []⟩, some ⟨e⟩) := by
  have h : (hexDecodeString offchainPK).2 ≠ none :=
    fun hnone => ho ((hexDecodeString_err_iff offchainPK).mp hnone)
  obtain ⟨e, he⟩ := Option.ne_none_iff_exists.mp h
  refine ⟨e, he.symm, ?_⟩
  unfold GenerateRMNHomeConfigs
  simp only [← he]

/-- C6: for every `peerID` and `offchainPK` of 64 hex digits and every other argument (nothing
is asked of the observer bitmap and `f`), `GenerateRMNHomeConfigs` returns no error, a static
config with exactly one node whose `PeerId` and `OffchainPublicKey` are the 32 bytes decoded
from `peerID` and `offchainPK`, a dynamic config with exactly one source chain carrying
`chainSelector`, `f` and the bitmap unchanged, and `offchainCfg` as both offchain configs. -/
theorem GenerateRMNHomeConfigs_valid (peerID offchainPK offchainCfg : GoString)
    (chainSelector f : Nat) (observerBitmap : Int)
    (hpl : peerID.length = 64) (hpd : ∀ c ∈ peerID, IsHexDigit c)
    (hol : offchainPK.length = 64) (hod : ∀ c ∈ offchainPK, IsHexDigit c) :
    (GenerateRMNHomeConfigs peerID offchainPK offchainCfg chainSelector f observerBitmap).2.2 =
      none ∧
    (∃ node : RMNHomeNode,
      (GenerateRMNHomeConfigs peerID offchainPK offchainCfg chainSelector f
        observerBitmap).1.Nodes = [node] ∧
      node.PeerId.bytes = (hexDecodeString peerID).1 ∧
      node.PeerId.bytes.map Fin.val = hexBytes peerID ∧
      node.OffchainPublicKey.bytes = (hexDecodeString offchainPK).1 ∧
      node.OffchainPublicKey.bytes.map Fin.val = hexBytes offchainPK) ∧
    (GenerateRMNHomeConfigs peerID offchainPK offchainCfg chainSelector f
      observerBitmap).1.OffchainConfig = offchainCfg ∧
    (GenerateRMNHomeConfigs peerID offchainPK offchainCfg chainSelector f observerBitmap).2.1 =
      { SourceChains := [{ ChainSelector := chainSelector, FObserve := f,
                           ObserverNodesBitmap := observerBitmap }]
        OffchainConfig := offchainCfg } := by
  have hp := validHex_of_digits peerID hpl hpd
  have ho := validHex_of_digits offchainPK hol hod
  have hplen : (hexDecodeString peerID).1.length = 32 := by
    rw [hexDecodeString_length peerID hp, hpl]
  have holen : (hexDecodeString offchainPK).1.length = 32 := by
    rw [hexDecodeString_length offchainPK ho, hol]
  rw [generate_of_valid peerID offchainPK offchainCfg chainSelector f observerBitmap ho]
  refine ⟨rfl, ⟨_, rfl, ?_, ?_, ?_, ?_⟩, rfl, rfl⟩
  · exact copy32_bytes _ hplen
  · show (copy32 (hexDecodeString peerID).1).bytes.map Fin.val = hexBytes peerID
    rw [copy32_bytes _ hplen, hexDecodeString_bytes peerID hp]
  · exact copy32_bytes _ holen
  · show (copy32 (hexDecodeString offchainPK).1).bytes.map Fin.val = hexBytes offchainPK
    rw [copy32_bytes _ holen, hexDecodeString_bytes offchainPK ho]

set_option maxRecDepth 100000 in
/-- The theorem `GenerateRMNHomeConfigs_valid` applied to the peer id `abab...ab`, the key
`0102...20`, an empty offchain config, chain selector 1, `f = 3` and the bitmap 1, whose single
observer is fewer than `2 * f + 1`. -/
theorem GenerateRMNHomeConfigs_valid_witness :
    hexAB.length = 64 ∧ (∀ c ∈ hexAB, IsHexDigit c) ∧
    hexCount.length = 64 ∧ (∀ c ∈ hexCount, IsHexDigit c) ∧
    (GenerateRMNHomeConfigs hexAB hexCount [] 1 3 1).2.2 = none ∧
    (∃ node : RMNHomeNode,
      (GenerateRMNHomeConfigs hexAB hexCount [] 1 3 1).1.Nodes = [node] ∧
      node.PeerId.bytes = (hexDecodeString hexAB).1 ∧
      node.PeerId.bytes.map Fin.val = hexBytes hexAB ∧
      node.OffchainPublicKey.bytes = (hexDecodeString hexCount).1 ∧
      node.OffchainPublicKey.bytes.map Fin.val = hexBytes hexCount) ∧
    (GenerateRMNHomeConfigs hexAB hexCount [] 1 3 1).1.OffchainConfig = [] ∧
    (GenerateRMNHomeConfigs hexAB hexCount [] 1 3 1).2.1 =
      { SourceChains := [{ ChainSelector := 1, FObserve := 3, ObserverNodesBitmap := 1 }]
        OffchainConfig := [] } :=
  ⟨by decide, by decide, by decide, by decide,
    GenerateRMNHomeConfigs_valid hexAB hexCount [] 1 3 1 (by decide) (by decide) (by decide)
      (by decide)⟩

/-- C10: `GenerateRMNHomeConfigs` returns an error exactly when `offchainPK` is not a valid hex
string (odd length or a character that is no hex digit), whatever `peerID` is; with an error
both configs are the zero value, without one both hold exactly one node and one source chain. -/
theorem GenerateRMNHomeConfigs_error_iff (peerID offchainPK offchainCfg : GoString)
    (chainSelector f : Nat) (observerBitmap : Int) :
    ((GenerateRMNHomeConfigs peerID offchainPK offchainCfg chainSelector f observerBitmap).2.2 ≠
        none ↔ ¬ ValidHex offchainPK) ∧
    ((GenerateRMNHomeConfigs peerID offchainPK offchainCfg chainSelector f observerBitmap).2.2 ≠
        none →
      (GenerateRMNHomeConfigs peerID offchainPK offchainCfg chainSelector f observerBitmap).1 =
        { Nodes := [], OffchainConfig := [] } ∧
      (GenerateRMNHomeConfigs peerID offchainPK offchainCfg chainSelector f observerBitmap).2.1 =
        { SourceChains := [], OffchainConfig := [] }) ∧
    ((GenerateRMNHomeConfigs peerID offchainPK offchainCfg chainSelector f observerBitmap).2.2 =
        none →
      (GenerateRMNHomeConfigs peerID offchainPK offchainCfg chainSelector f
        observerBitmap).1.Nodes.length = 1 ∧
      (GenerateRMNHomeConfigs peerID offchainPK offchainCfg chainSelector f
        observerBitmap).2.1.SourceChains.length = 1) := by
  by_cases ho : ValidHex offchainPK
  · rw [generate_of_valid peerID offchainPK offchainCfg chainSelector f observerBitmap ho]
    refine ⟨⟨fun h => absurd rfl h, fun h => absurd ho h⟩, fun h => absurd rfl h, fun _ => ⟨rfl, rfl⟩⟩
  · obtain ⟨e, _, he⟩ :=
      generate_of_invalid peerID offchainPK offchainCfg chainSelector f observerBitmap ho
    rw [he]
    refine ⟨⟨fun _ => ho, fun _ h => ?_⟩, fun _ => ⟨rfl, rfl⟩, fun h => ?_⟩
    · cases h
    · cases h

/-- C9, amended: `GenerateRMNHomeConfigs` rejects an `offchainPK` that fails to decode as hex:
it returns the decode error and two zero-value configs. The decoded length is not checked. -/
theorem GenerateRMNHomeConfigs_rejects_offchainPK (peerID offchainPK offchainCfg : GoString)
    (chainSelector f : Nat) (observerBitmap : Int)
    (hbad : (hexDecodeString offchainPK).2 ≠ none) :
    ¬ ValidHex offchainPK ∧
    ∃ e : HexError, (hexDecodeString offchainPK).2 = some e ∧
      GenerateRMNHomeConfigs peerID offchainPK offchainCfg chainSelector f observerBitmap =
        ({ Nodes := [], OffchainConfig := [] }, { SourceChains := [], OffchainConfig := [] },
          some ⟨e⟩) := by
  have ho : ¬ ValidHex offchainPK := fun h => hbad ((hexDecodeString_err_iff offchainPK).mpr h)
  exact ⟨ho, generate_of_invalid peerID offchainPK offchainCfg chainSelector f observerBitmap ho⟩

set_option maxRecDepth 100000 in
/-- The theorem `GenerateRMNHomeConfigs_rejects_offchainPK` applied to the key `zz`. -/
theorem GenerateRMNHomeConfigs_rejects_offchainPK_witness :
    (hexDecodeString [122, 122]).2 ≠ none ∧
    ¬ ValidHex [122, 122] ∧
    ∃ e : HexError, (hexDecodeString [122, 122]).2 = some e ∧
      GenerateRMNHomeConfigs hexAB [122, 122] [] 1 0 1 =
        ({ Nodes := [], OffchainConfig := [] }, { SourceChains := [], OffchainConfig := [] },
          some ⟨e⟩) :=
  ⟨by decide, GenerateRMNHomeConfigs_rejects_offchainPK hexAB [122, 122] [] 1 0 1 (by decide)⟩

set_option maxRecDepth 100000 in
/-- C9 as stated fails: with the peer id `abab...ab` and the key `ab`, which decodes to one byte
and not 32, no error is returned and the config holds the key padded with 31 zero bytes. -/
theorem GenerateRMNHomeConfigs_accepts_short_key :
    (hexDecodeString [97, 98]) = ([171], none) ∧
    (hexDecodeString [97, 98]).1.length ≠ 32 ∧
    (GenerateRMNHomeConfigs hexAB [97, 98] [] 1 0 1).2.2 = none ∧
    (GenerateRMNHomeConfigs hexAB [97, 98] [] 1 0 1).1.Nodes.map
        (fun n => n.OffchainPublicKey.bytes) = [171 :: List.replicate 31 0] := by
  decide

/-! ## Claims on `GenerateExpectedRMNHomeNodesInfo` -/

theorem foldl_nodesInfoStep (supported : Finset Nat) (nodes : List RMNHomeNode) :
    ∀ (acc : List HomeNodeInfo) (k : Nat),
      (nodes.foldl (nodesInfoStep supported) (acc, k % 2 ^ 32)).1 =
        acc ++ (nodes.enumFrom k).map (fun p =>
          { ID := p.1 % 2 ^ 32, PeerID := p.2.PeerId, SupportedSourceChains := supported,
            OffchainPublicKey := p.2.OffchainPublicKey.bytes }) := by
  induction nodes with
  | nil => intro acc k; simp
  | cons n ns ih =>
    intro acc k
    have hk : (k % 2 ^ 32 + 1) % 2 ^ 32 = (k + 1) % 2 ^ 32 := by omega
    simp only [List.foldl_cons, nodesInfoStep, hk, List.enumFrom_cons, List.map_cons]
    rw [ih]
    simp

theorem generateExpected_eq (staticConfig : RMNHomeStaticConfig) (chainID : Int) :
    GenerateExpectedRMNHomeNodesInfo staticConfig chainID =
      staticConfig.Nodes.enum.map (fun p =>
        { ID := p.1 % 2 ^ 32, PeerID := p.2.PeerId,
          SupportedSourceChains := {chainSelectorOfInt chainID},
          OffchainPublicKey := p.2.OffchainPublicKey.bytes }) := by
  unfold GenerateExpectedRMNHomeNodesInfo
  have h := foldl_nodesInfoStep {chainSelectorOfInt chainID} staticConfig.Nodes [] 0
  simpa [List.enum] using h

theorem generateExpected_getElem? (staticConfig : RMNHomeStaticConfig) (chainID : Int)
    (i : Nat) :
    (GenerateExpectedRMNHomeNodesInfo staticConfig chainID)[i]? =
      (staticConfig.Nodes[i]?).map (fun n =>
        { ID := i % 2 ^ 32, PeerID := n.PeerId,
          SupportedSourceChains := {chainSelectorOfInt chainID},
          OffchainPublicKey := n.OffchainPublicKey.bytes }) := by
  rw [generateExpected_eq, List.getElem?_map, List.getElem?_enum]
  cases staticConfig.Nodes[i]? <;> rfl

theorem chainSelector_roundtrip (c : Nat) (hc : c < 2 ^ 64) :
    chainSelectorOfInt (intOfChainSelector c) = c := by
  unfold chainSelectorOfInt intOfChainSelector
  split <;> omega

/-- C7, amended: for every static config with `n` nodes and every `chainID`,
`GenerateExpectedRMNHomeNodesInfo` returns exactly `n` records in the node order; the record at
index `i` has `ID = i mod 2^32` (so `ID = i` below `2^32`), the peer id and the 32 key bytes of
node `i`, and the singleton of `chainID` converted to a chain selector as supported chains. -/
theorem GenerateExpectedRMNHomeNodesInfo_records (staticConfig : RMNHomeStaticConfig)
    (chainID : Int) :
    (GenerateExpectedRMNHomeNodesInfo staticConfig chainID).length =
      staticConfig.Nodes.length ∧
    (∀ i : Nat, (GenerateExpectedRMNHomeNodesInfo staticConfig chainID)[i]? =
      (staticConfig.Nodes[i]?).map (fun n =>
        { ID := i % 2 ^ 32, PeerID := n.PeerId,
          SupportedSourceChains := {chainSelectorOfInt chainID},
          OffchainPublicKey := n.OffchainPublicKey.bytes })) ∧
    (∀ (i : Nat) (n : RMNHomeNode), i < 2 ^ 32 → staticConfig.Nodes[i]? = some n →
      (GenerateExpectedRMNHomeNodesInfo staticConfig chainID)[i]? =
        some { ID := i, PeerID := n.PeerId,
               SupportedSourceChains := {chainSelectorOfInt chainID},
               OffchainPublicKey := n.OffchainPublicKey.bytes } ∧
      n.OffchainPublicKey.bytes.length = 32) ∧
    (0 ≤ chainID → chainID < 2 ^ 64 → (chainSelectorOfInt chainID : Int) = chainID) := by
  refine ⟨?_, generateExpected_getElem? staticConfig chainID, ?_, ?_⟩
  · rw [generateExpected_eq]; simp
  · intro i n hi hn
    rw [generateExpected_getElem?, hn, Option.map_some', Nat.mod_eq_of_lt hi]
    exact ⟨rfl, n.OffchainPublicKey.size⟩
  · intro h0 h1
    unfold chainSelectorOfInt
    omega

/-- C7 as stated fails on a roster of `2^32 + 1` nodes: the `uint32` counter has wrapped, and
the record at index `2^32` has `ID = 0`. -/
theorem GenerateExpectedRMNHomeNodesInfo_id_wraps :
    ((GenerateExpectedRMNHomeNodesInfo
        { Nodes := List.replicate 4294967297 sampleNode, OffchainConfig := [] } 1)[4294967296]?).map
      (fun info => info.ID) = some 0 ∧
    (List.replicate 4294967297 sampleNode)[4294967296]? = some sampleNode := by
  have hget : (List.replicate 4294967297 sampleNode)[4294967296]? = some sampleNode := by
    rw [List.getElem?_replicate, if_pos (by norm_num)]
  refine ⟨?_, hget⟩
  rw [generateExpected_getElem?, hget]
  rfl

/-- C8, amended: when the configs come from `GenerateRMNHomeConfigs` on valid 32-byte hex
inputs, `GenerateExpectedRMNHomeNodesInfo(static, c)` yields exactly one record, with `ID = 0`
and `SupportedSourceChains = {c}` whatever the observer bitmap `b` is; that is the set of chain
selectors of the dynamic config whose bitmap has bit 0 set exactly when bit 0 of `b` is set. -/
theorem nodesInfo_of_generated_configs (peerID offchainPK offchainCfg : GoString)
    (c f : Nat) (b : Int) (hc : c < 2 ^ 64)
    (hpl : peerID.length = 64) (hpd : ∀ x ∈ peerID, IsHexDigit x)
    (hol : offchainPK.length = 64) (hod : ∀ x ∈ offchainPK, IsHexDigit x) :
    (∃ info : HomeNodeInfo,
      GenerateExpectedRMNHomeNodesInfo
        (GenerateRMNHomeConfigs peerID offchainPK offchainCfg c f b).1
        (intOfChainSelector c) = [info] ∧
      info.ID = 0 ∧ info.SupportedSourceChains = {c} ∧
      info.PeerID.bytes.map Fin.val = hexBytes peerID) ∧
    observedSourceChains (GenerateRMNHomeConfigs peerID offchainPK offchainCfg c f b).2.1 0 =
      (if b % 2 = 1 then {c} else ∅) := by
  have hp := validHex_of_digits peerID hpl hpd
  have ho := validHex_of_digits offchainPK hol hod
  have hplen : (hexDecodeString peerID).1.length = 32 := by
    rw [hexDecodeString_length peerID hp, hpl]
  rw [generate_of_valid peerID offchainPK offchainCfg c f b ho]
  constructor
  · refine ⟨_, rfl, rfl, ?_, ?_⟩
    · show ({chainSelectorOfInt (intOfChainSelector c)} : Finset Nat) = {c}
      rw [chainSelector_roundtrip c hc]
    · show (copy32 (hexDecodeString peerID).1).bytes.map Fin.val = hexBytes peerID
      rw [copy32_bytes _ hplen, hexDecodeString_bytes peerID hp]
  · unfold observedSourceChains
    by_cases hb : b % 2 = 1
    · simp [hb]
    · simp [hb]

set_option maxRecDepth 100000 in
/-- The theorem `nodesInfo_of_generated_configs` applied to the scenario of the specification:
peer id `abab...ab`, chain selector 1, `f = 0`, observer bitmap 1; one record, supporting the
source chains `{1}`. -/
theorem nodesInfo_of_generated_configs_witness :
    (1 : Nat) < 2 ^ 64 ∧
    hexAB.length = 64 ∧ (∀ x ∈ hexAB, IsHexDigit x) ∧
    hexCount.length = 64 ∧ (∀ x ∈ hexCount, IsHexDigit x) ∧
    (∃ info : HomeNodeInfo,
      GenerateExpectedRMNHomeNodesInfo (GenerateRMNHomeConfigs hexAB hexCount [] 1 0 1).1
        (intOfChainSelector 1) = [info] ∧
      info.ID = 0 ∧ info.SupportedSourceChains = {1} ∧
      info.PeerID.bytes.map Fin.val = hexBytes hexAB) ∧
    observedSourceChains (GenerateRMNHomeConfigs hexAB hexCount [] 1 0 1).2.1 0 =
      (if (1 : Int) % 2 = 1 then {1} else ∅) :=
  ⟨by decide, by decide, by decide, by decide, by decide,
    nodesInfo_of_generated_configs hexAB hexCount [] 1 0 1 (by decide) (by decide) (by decide)
      (by decide) (by decide)⟩

set_option maxRecDepth 100000 in
/-- C8 as stated fails for the observer bitmap 0: no source chain has bit 0 set, so the set
the claim describes is empty, while the record still supports the source chains `{1}`. -/
theorem nodesInfo_ignores_bitmap :
    (GenerateExpectedRMNHomeNodesInfo (GenerateRMNHomeConfigs hexAB hexCount [] 1 0 0).1
        (intOfChainSelector 1)).map (fun info => info.SupportedSourceChains) = [{1}] ∧
    observedSourceChains (GenerateRMNHomeConfigs hexAB hexCount [] 1 0 0).2.1 0 = ∅ ∧
    (GenerateExpectedRMNHomeNodesInfo (GenerateRMNHomeConfigs hexAB hexCount [] 1 0 0).1
        (intOfChainSelector 1)).map (fun info => info.SupportedSourceChains) ≠
      [observedSourceChains (GenerateRMNHomeConfigs hexAB hexCount [] 1 0 0).2.1 0] := by
  decide

end IntegrationHelpers
